import Mathlib

/-!
Shallow embedding of the equipment-tracker backend
(`backend/routes/equipmentRoutes.js` and `backend/db.js`).

The route handlers receive a JSON body whose fields may be absent
(`undefined`), `null`, strings, numbers or booleans; `JVal` models that
value space.  The SQLite table is modelled by `DB`: a list of rows plus
the AUTOINCREMENT counter, with the CHECK constraints on `type` and
`status` enforced by the store operations themselves.  Timestamps
(CURRENT_TIMESTAMP) are modelled by a `now : Nat` parameter to each
mutating call.
-/

namespace Equip

/-- A JavaScript value as it can appear in a request-body field.
`undef` models an absent field (`undefined`). -/
inductive JVal where
  | undef : JVal
  | null : JVal
  | str : String → JVal
  | num : Int → JVal
  | bool : Bool → JVal
deriving DecidableEq

/-- JavaScript truthiness: `undefined`, `null`, the empty string, `0` and
`false` are falsy, everything else here is truthy. -/
def JVal.truthy : JVal → Bool
  | .undef => false
  | .null => false
  | .str s => decide (s ≠ "")
  | .num n => decide (n ≠ 0)
  | .bool b => b

/-- JavaScript string coercion, as applied by `RegExp.test` to a
non-string argument. -/
def JVal.toStr : JVal → String
  | .undef => "undefined"
  | .null => "null"
  | .str s => s
  | .num n => toString n
  | .bool b => if b then "true" else "false"

/-- Mirrors String.prototype.trim: strip leading and trailing whitespace.
Defined on the character list so that it reduces in the kernel; JS trims
a slightly larger whitespace set (for example NBSP), which no claim
exercises. -/
def jsTrim (s : String) : String :=
  String.mk (((s.data.dropWhile Char.isWhitespace).reverse.dropWhile
      Char.isWhitespace).reverse)

/-- The `VALID_TYPES` constant of the routes module. -/
def VALID_TYPES : List String := ["Machine", "Vessel", "Tank", "Mixer"]

/-- The `VALID_STATUSES` constant of the routes module. -/
def VALID_STATUSES : List String := ["Active", "Inactive", "Under Maintenance"]

/-- Mirrors VALID_TYPES.includes(t) (strict equality on strings). -/
def typeOk (t : String) : Bool := VALID_TYPES.contains t

/-- Mirrors VALID_STATUSES.includes(s). -/
def statusOk (s : String) : Bool := VALID_STATUSES.contains s

/-- The regex `^\d{4}-\d{2}-\d{2}$`: exactly four digits, a dash, two
digits, a dash, two digits.  Purely syntactic; no calendar check. -/
def matchesDatePattern (s : String) : Bool :=
  match s.data with
  | [a, b, c, d, e, f, g, h, i, j] =>
    a.isDigit && b.isDigit && c.isDigit && d.isDigit &&
    e == '-' && f.isDigit && g.isDigit &&
    h == '-' && i.isDigit && j.isDigit
  | _ => false

/-- One row of the `equipment` table. -/
structure Equipment where
  id : Nat
  name : String
  type : String
  status : String
  lastCleanedDate : Option String
  createdAt : Nat
  updatedAt : Nat
deriving DecidableEq

/-- The SQLite store: the rows in insertion order plus the AUTOINCREMENT
counter for `id`. -/
structure DB where
  rows : List Equipment
  nextId : Nat
deriving DecidableEq

/-- A freshly created table: no rows, AUTOINCREMENT starts at 1. -/
def initDB : DB := { rows := [], nextId := 1 }

/-- Mirrors SELECT * FROM equipment WHERE id = ?. -/
def dbGet (db : DB) (i : Nat) : Option Equipment :=
  db.rows.find? (fun e => e.id == i)

/-- Mirrors INSERT INTO equipment (name, type, status, lastCleanedDate)
VALUES (?, ?, ?, ?): assigns the next id, sets both timestamps, and enforces
the CHECK constraints on `type` and `status` (a violation makes the
insert fail, surfaced by the route as a 500). -/
def dbInsert (db : DB) (now : Nat) (name ty st : String)
    (lcd : Option String) : Option (DB × Equipment) :=
  if typeOk ty ∧ statusOk st then
    let e : Equipment :=
      { id := db.nextId, name := name, type := ty, status := st,
        lastCleanedDate := lcd, createdAt := now, updatedAt := now }
    some ({ rows := db.rows ++ [e], nextId := db.nextId + 1 }, e)
  else none

/-- The dynamically built SET clause of the update route: for each of the
four updatable columns, `some v` when the clause sets it, `none` when
the request left it out.  `lastCleanedDate := some none` sets the column
to NULL. -/
structure FieldPatch where
  name : Option String
  type : Option String
  status : Option String
  lastCleanedDate : Option (Option String)
deriving DecidableEq

/-- Apply a SET clause to one row; `updatedAt = CURRENT_TIMESTAMP` is
always part of the clause. -/
def applyPatch (p : FieldPatch) (now : Nat) (e : Equipment) : Equipment :=
  { e with
    name := p.name.getD e.name,
    type := p.type.getD e.type,
    status := p.status.getD e.status,
    lastCleanedDate := p.lastCleanedDate.getD e.lastCleanedDate,
    updatedAt := now }

/-- The row list after an UPDATE: every row whose id matches is
patched, the others are untouched. -/
def patchRows (db : DB) (i : Nat) (p : FieldPatch) (now : Nat) : DB :=
  { db with
    rows := db.rows.map (fun e => if e.id == i then applyPatch p now e else e) }

/-- Mirrors UPDATE equipment SET ... WHERE id = ?: patches every row whose id
matches, subject to the CHECK constraints on the patched rows. -/
def dbUpdate (db : DB) (i : Nat) (p : FieldPatch) (now : Nat) : Option DB :=
  if ∀ e ∈ db.rows, e.id = i →
      (typeOk (applyPatch p now e).type ∧ statusOk (applyPatch p now e).status) then
    some (patchRows db i p now)
  else none

/-- Mirrors DELETE FROM equipment WHERE id = ?. -/
def dbDelete (db : DB) (i : Nat) : DB :=
  { db with rows := db.rows.filter (fun e => e.id != i) }

/-- Mirrors SELECT * FROM equipment ORDER BY id DESC, modelled by an insertion
sort with respect to descending id. -/
def getAll (db : DB) : List Equipment :=
  List.insertionSort (fun a b => b.id ≤ a.id) db.rows

/-- The path parameter check `!id || isNaN(id)` followed by the use of
the id, restricted to canonical decimal ids (JS numeric coercion also
accepts forms such as `"3.5"` or `" 42"`, which no claim needs): a
non-empty all-digit string parses, anything else is rejected. -/
def parseId (s : String) : Option Nat :=
  if s.data ≠ [] ∧ s.data.all Char.isDigit then
    some (s.data.foldl (fun a c => a * 10 + (c.toNat - 48)) 0)
  else none

/-- The request body of the create and update routes: the four fields
destructured from `req.body` (`undef` when absent). -/
structure Req where
  name : JVal
  type : JVal
  status : JVal
  lastCleanedDate : JVal
deriving DecidableEq

/-- Mirrors the create-route check: name falsy, or not of string type,
or blank after trimming. -/
def nameInvalid (v : JVal) : Bool :=
  !v.truthy || (match v with
    | .str s => decide (jsTrim s = "")
    | _ => true)

/-- Mirrors the create-route check: type falsy or outside VALID_TYPES. -/
def typeInvalid (v : JVal) : Bool :=
  !v.truthy || !(match v with
    | .str s => typeOk s
    | _ => false)

/-- Mirrors the create-route check: status falsy or outside
VALID_STATUSES. -/
def statusInvalid (v : JVal) : Bool :=
  !v.truthy || !(match v with
    | .str s => statusOk s
    | _ => false)

/-- Mirrors the create-route date check: a truthy lastCleanedDate whose
string coercion fails the regex (a falsy date skips the format check). -/
def dateInvalidCreate (v : JVal) : Bool :=
  v.truthy && !matchesDatePattern v.toStr

/-- Mirrors the update-route name check: not of string type or blank
after trimming (no truthiness test, so a supplied empty string is
checked and fails). -/
def nameInvalidUpd (v : JVal) : Bool :=
  match v with
  | .str s => decide (jsTrim s = "")
  | _ => true

/-- Mirrors the update-route check: type outside VALID_TYPES. -/
def typeInvalidUpd (v : JVal) : Bool :=
  !(match v with
    | .str s => typeOk s
    | _ => false)

/-- Mirrors the update-route check: status outside VALID_STATUSES. -/
def statusInvalidUpd (v : JVal) : Bool :=
  !(match v with
    | .str s => statusOk s
    | _ => false)

/-- Mirrors the update-route date check: a supplied non-null value whose
string coercion fails the regex (only an explicit null bypasses the
regex once the field is supplied). -/
def dateInvalidUpd (v : JVal) : Bool :=
  v != JVal.null && !matchesDatePattern v.toStr

/-- Validation message of the create route for `name`. -/
def nameReqMsg : String := "name is required and must be a non-empty string"

/-- Validation message of the create route for `type`
(the source interpolates the comma-joined VALID_TYPES list). -/
def typeReqMsg : String :=
  "type is required and must be one of: Machine, Vessel, Tank, Mixer"

/-- Validation message of the create route for `status`. -/
def statusReqMsg : String :=
  "status is required and must be one of: Active, Inactive, Under Maintenance"

/-- Validation message for `lastCleanedDate`, shared by both routes. -/
def dateFmtMsg : String := "lastCleanedDate must be in YYYY-MM-DD format"

/-- Validation message of the update route for `name`. -/
def nameUpdMsg : String := "name must be a non-empty string"

/-- Validation message of the update route for `type`. -/
def typeUpdMsg : String := "type must be one of: Machine, Vessel, Tank, Mixer"

/-- Validation message of the update route for `status`. -/
def statusUpdMsg : String :=
  "status must be one of: Active, Inactive, Under Maintenance"

/-- The `errors` array the create route accumulates, in push order:
name, type, status, lastCleanedDate. -/
def createErrors (r : Req) : List String :=
  (if nameInvalid r.name then [nameReqMsg] else []) ++
  (if typeInvalid r.type then [typeReqMsg] else []) ++
  (if statusInvalid r.status then [statusReqMsg] else []) ++
  (if dateInvalidCreate r.lastCleanedDate then [dateFmtMsg] else [])

/-- Outcome of `POST /api/equipment`. -/
inductive CreateRes where
  | created (e : Equipment)
  | badRequest (details : List String)
  | serverError
deriving DecidableEq

/-- The `POST /api/equipment` handler: collect all validation errors; on
any, answer 400 with the full `details` array; otherwise insert
`name.trim()`, `type`, `status`, `lastCleanedDate || null` and answer
201 with the stored row. -/
def createHandler (db : DB) (now : Nat) (r : Req) : DB × CreateRes :=
  if createErrors r = [] then
    match dbInsert db now (jsTrim r.name.toStr) r.type.toStr r.status.toStr
        (if r.lastCleanedDate.truthy then some r.lastCleanedDate.toStr else none) with
    | some (db2, e) => (db2, .created e)
    | none => (db, .serverError)
  else (db, .badRequest (createErrors r))

/-- Outcome of `PUT /api/equipment/:id`.  `notFound` and the deleted
echo carry `parseInt(id)`. -/
inductive UpdateRes where
  | updated (e : Equipment)
  | invalidId
  | notFound (id : Nat)
  | badRequest (details : List String)
  | noFields
  | serverError
deriving DecidableEq

/-- The SET clause the update route builds from the supplied fields. -/
def mkPatch (r : Req) : FieldPatch :=
  { name := if r.name ≠ JVal.undef then some (jsTrim r.name.toStr) else none,
    type := if r.type ≠ JVal.undef then some r.type.toStr else none,
    status := if r.status ≠ JVal.undef then some r.status.toStr else none,
    lastCleanedDate :=
      if r.lastCleanedDate ≠ JVal.undef then
        some (if r.lastCleanedDate = JVal.null then none
              else some r.lastCleanedDate.toStr)
      else none }

/-- The `PUT /api/equipment/:id` handler: id check, existence check,
then per-field validation in source order (name, type, status,
lastCleanedDate) with an early 400 on the first invalid supplied field,
the zero-fields 400, and finally the UPDATE plus re-read. -/
def updateHandler (db : DB) (now : Nat) (idStr : String) (r : Req) :
    DB × UpdateRes :=
  match parseId idStr with
  | none => (db, .invalidId)
  | some i =>
    match dbGet db i with
    | none => (db, .notFound i)
    | some _ =>
      if r.name ≠ JVal.undef ∧ nameInvalidUpd r.name then
        (db, .badRequest [nameUpdMsg])
      else if r.type ≠ JVal.undef ∧ typeInvalidUpd r.type then
        (db, .badRequest [typeUpdMsg])
      else if r.status ≠ JVal.undef ∧ statusInvalidUpd r.status then
        (db, .badRequest [statusUpdMsg])
      else if r.lastCleanedDate ≠ JVal.undef ∧ dateInvalidUpd r.lastCleanedDate then
        (db, .badRequest [dateFmtMsg])
      else if r.name = JVal.undef ∧ r.type = JVal.undef ∧
          r.status = JVal.undef ∧ r.lastCleanedDate = JVal.undef then
        (db, .noFields)
      else
        match dbUpdate db i (mkPatch r) now with
        | some db2 =>
          match dbGet db2 i with
          | some e => (db2, .updated e)
          | none => (db2, .serverError)
        | none => (db, .serverError)

/-- Outcome of `DELETE /api/equipment/:id`.  `deleted` echoes
`parseInt(id)`. -/
inductive DeleteRes where
  | deleted (id : Nat)
  | invalidId
  | notFound (id : Nat)
deriving DecidableEq

/-- The `DELETE /api/equipment/:id` handler: id check, existence check,
then the DELETE, answering 200 with the parsed id. -/
def deleteHandler (db : DB) (idStr : String) : DB × DeleteRes :=
  match parseId idStr with
  | none => (db, .invalidId)
  | some i =>
    match dbGet db i with
    | none => (db, .notFound i)
    | some _ => (dbDelete db i, .deleted i)

/-- One API call, as far as it mutates the store. -/
inductive Op where
  | create (now : Nat) (r : Req)
  | update (now : Nat) (idStr : String) (r : Req)
  | delete (idStr : String)

/-- The store after one API call. -/
def applyOp (db : DB) : Op → DB
  | .create now r => (createHandler db now r).1
  | .update now idStr r => (updateHandler db now idStr r).1
  | .delete idStr => (deleteHandler db idStr).1

/-- The store after a sequence of API calls. -/
def runOps (db : DB) (ops : List Op) : DB := ops.foldl applyOp db

/-- A store state the API can reach from the fresh table. -/
def Reachable (db : DB) : Prop := ∃ ops, runOps initDB ops = db

/-- The id returned by an op when it is a successful create. -/
def createResIds (db : DB) : Op → List Nat
  | .create now r =>
    match (createHandler db now r).2 with
    | .created e => [e.id]
    | _ => []
  | _ => []

/-- All ids handed out by successful creates along a run, including
those of records later deleted. -/
def createdIds : DB → List Op → List Nat
  | _, [] => []
  | db, op :: ops => createResIds db op ++ createdIds (applyOp db op) ops

/-- Every row respects the two enumeration CHECK constraints. -/
def EnumOk (db : DB) : Prop :=
  ∀ e ∈ db.rows, typeOk e.type = true ∧ statusOk e.status = true

/-- A successful create stored exactly the validated, trimmed input with
the next id and both timestamps set to the call instant. -/
theorem createHandler_created_eq {db : DB} {now : Nat} {r : Req} {db2 : DB}
    {e : Equipment} (h : createHandler db now r = (db2, .created e)) :
    createErrors r = [] ∧
    e = { id := db.nextId, name := jsTrim r.name.toStr, type := r.type.toStr,
          status := r.status.toStr,
          lastCleanedDate :=
            if r.lastCleanedDate.truthy then some r.lastCleanedDate.toStr else none,
          createdAt := now, updatedAt := now } ∧
    db2 = { rows := db.rows ++ [e], nextId := db.nextId + 1 } := by
  unfold createHandler at h
  rcases hins : dbInsert db now (jsTrim r.name.toStr) r.type.toStr r.status.toStr
      (if r.lastCleanedDate.truthy then some r.lastCleanedDate.toStr else none)
    with _ | ⟨db3, e3⟩ <;> rw [hins] at h
  · split at h <;> simp at h
  · split at h
    · rename_i herr
      simp only [Prod.mk.injEq, CreateRes.created.injEq] at h
      obtain ⟨h1, h2⟩ := h
      subst h1
      subst h2
      unfold dbInsert at hins
      split at hins
      · simp only [Option.some.injEq, Prod.mk.injEq] at hins
        obtain ⟨hdb, he⟩ := hins
        subst hdb
        subst he
        exact ⟨herr, rfl, rfl⟩
      · simp at hins
    · simp at h

/-- Lookup over the row map performed by an UPDATE commutes with the
patch, because the patch never changes a row id. -/
theorem find?_patch (rows : List Equipment) (i : Nat) (p : FieldPatch)
    (now : Nat) :
    (rows.map (fun x => if x.id == i then applyPatch p now x else x)).find?
      (fun e => e.id == i) =
    (rows.find? (fun e => e.id == i)).map (applyPatch p now) := by
  induction rows with
  | nil => rfl
  | cons x xs ih =>
    by_cases hx : x.id = i
    · have hb : (x.id == i) = true := by simp [hx]
      have hg2 : ((applyPatch p now x).id == i) = true := by
        simp [applyPatch, hx]
      rw [List.map_cons, if_pos hb]
      simp only [List.find?, hg2, hb]
      rfl
    · have hb : (x.id == i) = false := by simp [hx]
      rw [List.map_cons, if_neg (by simp [hx])]
      simp only [List.find?, hb]
      exact ih

/-- A successful UPDATE call: the returned row is the stored row with
the supplied patch applied, and the store maps the patch over the
matching rows. -/
theorem updateHandler_updated_eq {db : DB} {now : Nat} {idStr : String}
    {r : Req} {db2 : DB} {e2 : Equipment} {i : Nat} {e : Equipment}
    (hp : parseId idStr = some i) (hg : dbGet db i = some e)
    (h : updateHandler db now idStr r = (db2, .updated e2)) :
    e2 = applyPatch (mkPatch r) now e ∧ db2 = patchRows db i (mkPatch r) now := by
  have hfind : dbGet (patchRows db i (mkPatch r) now) i =
      some (applyPatch (mkPatch r) now e) := by
    unfold dbGet at hg ⊢
    unfold patchRows
    rw [find?_patch, hg]
    rfl
  unfold updateHandler at h
  split at h
  · simp at h
  · rename_i i2 hp2
    rw [hp] at hp2
    injection hp2 with hp2
    subst hp2
    split at h
    · simp at h
    · split at h
      · simp at h
      · split at h
        · simp at h
        · split at h
          · simp at h
          · split at h
            · simp at h
            · split at h
              · simp at h
              · split at h
                · rename_i db3 hupd
                  split at h
                  · rename_i e4 hfound
                    unfold dbUpdate at hupd
                    split at hupd
                    · injection hupd with hupd
                      subst hupd
                      rw [hfind] at hfound
                      injection hfound with hfound
                      subst hfound
                      simp only [Prod.mk.injEq, UpdateRes.updated.injEq] at h
                      exact ⟨h.2.symm, h.1.symm⟩
                    · simp at hupd
                  · simp at h
                · simp at h

/-- After a DELETE, the id no longer resolves. -/
theorem dbGet_dbDelete (db : DB) (i : Nat) : dbGet (dbDelete db i) i = none := by
  unfold dbGet dbDelete
  rw [List.find?_eq_none]
  intro e he
  simp only [List.mem_filter, bne_iff_ne, ne_eq] at he
  simp [he.2]

/-- Once the id parses and the record exists, the update route reduces
to its per-field validation chain followed by the UPDATE. -/
theorem updateHandler_eq (db : DB) (now : Nat) (idStr : String) (r : Req)
    (i : Nat) (e : Equipment)
    (hp : parseId idStr = some i) (hg : dbGet db i = some e) :
    updateHandler db now idStr r =
    (if r.name ≠ JVal.undef ∧ nameInvalidUpd r.name then
      (db, .badRequest [nameUpdMsg])
    else if r.type ≠ JVal.undef ∧ typeInvalidUpd r.type then
      (db, .badRequest [typeUpdMsg])
    else if r.status ≠ JVal.undef ∧ statusInvalidUpd r.status then
      (db, .badRequest [statusUpdMsg])
    else if r.lastCleanedDate ≠ JVal.undef ∧ dateInvalidUpd r.lastCleanedDate then
      (db, .badRequest [dateFmtMsg])
    else if r.name = JVal.undef ∧ r.type = JVal.undef ∧
        r.status = JVal.undef ∧ r.lastCleanedDate = JVal.undef then
      (db, .noFields)
    else
      match dbUpdate db i (mkPatch r) now with
      | some db2 =>
        match dbGet db2 i with
        | some e2 => (db2, .updated e2)
        | none => (db2, .serverError)
      | none => (db, .serverError)) := by
  unfold updateHandler
  split
  · rename_i hp2
    rw [hp] at hp2
    cases hp2
  · rename_i i2 hp2
    rw [hp] at hp2
    injection hp2 with hp2
    subst hp2
    split
    · rename_i hg2
      rw [hg] at hg2
      cases hg2
    · rfl

/-- The update route answers 404 with the parsed id whenever that id
resolves to no row, whatever the body. -/
theorem updateHandler_notFound (db : DB) (now : Nat) (idStr : String)
    (r : Req) (i : Nat)
    (hp : parseId idStr = some i) (hg : dbGet db i = none) :
    updateHandler db now idStr r = (db, .notFound i) := by
  unfold updateHandler
  split
  · rename_i hp2
    rw [hp] at hp2
    cases hp2
  · rename_i i2 hp2
    rw [hp] at hp2
    injection hp2 with hp2
    subst hp2
    split
    · rfl
    · rename_i e2 hg2
      rw [hg] at hg2
      cases hg2

/-- The delete route on an existing id: the row set is filtered and the
parsed id is echoed with 200. -/
theorem deleteHandler_found (db : DB) (idStr : String) (i : Nat)
    (e : Equipment) (hp : parseId idStr = some i) (hg : dbGet db i = some e) :
    deleteHandler db idStr = (dbDelete db i, .deleted i) := by
  unfold deleteHandler
  split
  · rename_i hp2
    rw [hp] at hp2
    cases hp2
  · rename_i i2 hp2
    rw [hp] at hp2
    injection hp2 with hp2
    subst hp2
    split
    · rename_i hg2
      rw [hg] at hg2
      cases hg2
    · rfl

/-- The delete route on a missing id answers 404 with the parsed id and
leaves the store unchanged. -/
theorem deleteHandler_missing (db : DB) (idStr : String) (i : Nat)
    (hp : parseId idStr = some i) (hg : dbGet db i = none) :
    deleteHandler db idStr = (db, .notFound i) := by
  unfold deleteHandler
  split
  · rename_i hp2
    rw [hp] at hp2
    cases hp2
  · rename_i i2 hp2
    rw [hp] at hp2
    injection hp2 with hp2
    subst hp2
    split
    · rfl
    · rename_i e2 hg2
      rw [hg] at hg2
      cases hg2

/-- When the validation array is non-empty the create route answers 400
with exactly that array and leaves the store unchanged. -/
theorem createHandler_badRequest (db : DB) (now : Nat) (r : Req)
    (hne : createErrors r ≠ []) :
    createHandler db now r = (db, .badRequest (createErrors r)) := by
  unfold createHandler
  rw [if_neg hne]

/-- A create call either leaves the store as it was or appends a single
row satisfying both CHECK constraints and bumps the counter. -/
theorem createHandler_fst_cases (db : DB) (now : Nat) (r : Req) :
    (createHandler db now r).1 = db ∨
    ∃ e, (createHandler db now r).1 =
        { rows := db.rows ++ [e], nextId := db.nextId + 1 } ∧
      typeOk e.type = true ∧ statusOk e.status = true := by
  unfold createHandler
  split
  · split
    · rename_i db3 e3 hins
      right
      unfold dbInsert at hins
      split at hins
      · rename_i hok
        injection hins with hins
        rw [Prod.mk.injEq] at hins
        obtain ⟨hA, hB⟩ := hins
        refine ⟨e3, ?_, ?_, ?_⟩
        · rw [← hA, ← hB]
        · rw [← hB]
          exact hok.1
        · rw [← hB]
          exact hok.2
      · cases hins
    · left
      rfl
  · left
    rfl

/-- An update call either leaves the store as it was or performs one
`dbUpdate`. -/
theorem updateHandler_fst_cases (db : DB) (now : Nat) (idStr : String)
    (r : Req) :
    (updateHandler db now idStr r).1 = db ∨
    ∃ i p, dbUpdate db i p now = some ((updateHandler db now idStr r).1) := by
  unfold updateHandler
  split
  · left
    rfl
  · rename_i i hp2
    split
    · left
      rfl
    · split
      · left
        rfl
      split
      · left
        rfl
      split
      · left
        rfl
      split
      · left
        rfl
      split
      · left
        rfl
      split
      · rename_i db3 hupd
        split
        · exact Or.inr ⟨i, mkPatch r, hupd⟩
        · exact Or.inr ⟨i, mkPatch r, hupd⟩
      · left
        rfl

/-- A delete call either leaves the store as it was or filters one id
out of the rows. -/
theorem deleteHandler_fst_cases (db : DB) (idStr : String) :
    (deleteHandler db idStr).1 = db ∨
    ∃ i, (deleteHandler db idStr).1 = dbDelete db i := by
  unfold deleteHandler
  split
  · left
    rfl
  · rename_i i hp2
    split
    · left
      rfl
    · exact Or.inr ⟨i, rfl⟩

/-- A successful `dbUpdate` preserves the CHECK constraints: untouched
rows keep them, patched rows are re-checked by the guard. -/
theorem enumOk_dbUpdate {db db2 : DB} {i : Nat} {p : FieldPatch} {now : Nat}
    (h : EnumOk db) (hupd : dbUpdate db i p now = some db2) : EnumOk db2 := by
  unfold dbUpdate at hupd
  split at hupd
  · rename_i hguard
    injection hupd with hupd
    subst hupd
    intro x hx
    unfold patchRows at hx
    simp only [List.mem_map] at hx
    obtain ⟨y, hy, hxy⟩ := hx
    by_cases hid : y.id = i
    · rw [← hxy, if_pos (by simp [hid])]
      exact hguard y hy hid
    · rw [← hxy, if_neg (by simp [hid])]
      exact h y hy
  · cases hupd

/-- Every API call preserves the two enumeration CHECK constraints. -/
theorem enumOk_applyOp {db : DB} (h : EnumOk db) (op : Op) :
    EnumOk (applyOp db op) := by
  cases op with
  | create now r =>
    show EnumOk (createHandler db now r).1
    rcases createHandler_fst_cases db now r with hc | ⟨e, hc, ht, hs⟩
    · rw [hc]
      exact h
    · rw [hc]
      intro x hx
      rcases List.mem_append.mp hx with hx | hx
      · exact h x hx
      · rw [List.mem_singleton.mp hx]
        exact ⟨ht, hs⟩
  | update now idStr r =>
    show EnumOk (updateHandler db now idStr r).1
    rcases updateHandler_fst_cases db now idStr r with hc | ⟨i, p, hupd⟩
    · rw [hc]
      exact h
    · exact enumOk_dbUpdate h hupd
  | delete idStr =>
    show EnumOk (deleteHandler db idStr).1
    rcases deleteHandler_fst_cases db idStr with hc | ⟨i, hc⟩
    · rw [hc]
      exact h
    · rw [hc]
      intro x hx
      unfold dbDelete at hx
      simp only [List.mem_filter] at hx
      exact h x hx.1

/-- Running any op sequence preserves the CHECK constraints. -/
theorem enumOk_runOps {db : DB} (h : EnumOk db) (ops : List Op) :
    EnumOk (runOps db ops) := by
  induction ops generalizing db with
  | nil => exact h
  | cons op ops ih => exact ih (enumOk_applyOp h op)

/-- The AUTOINCREMENT counter never decreases across one API call. -/
theorem applyOp_nextId_le (db : DB) (op : Op) :
    db.nextId ≤ (applyOp db op).nextId := by
  cases op with
  | create now r =>
    show db.nextId ≤ (createHandler db now r).1.nextId
    rcases createHandler_fst_cases db now r with hc | ⟨e, hc, _, _⟩
    · rw [hc]
    · rw [hc]
      exact Nat.le_succ _
  | update now idStr r =>
    show db.nextId ≤ (updateHandler db now idStr r).1.nextId
    rcases updateHandler_fst_cases db now idStr r with hc | ⟨i, p, hupd⟩
    · rw [hc]
    · unfold dbUpdate at hupd
      split at hupd
      · injection hupd with hupd
        rw [← hupd]
        exact Nat.le_refl _
      · cases hupd
  | delete idStr =>
    show db.nextId ≤ (deleteHandler db idStr).1.nextId
    rcases deleteHandler_fst_cases db idStr with hc | ⟨i, hc⟩
    · rw [hc]
    · rw [hc]
      exact Nat.le_refl _

/-- The AUTOINCREMENT counter never decreases across a run. -/
theorem runOps_nextId_le (db : DB) (ops : List Op) :
    db.nextId ≤ (runOps db ops).nextId := by
  induction ops generalizing db with
  | nil => exact Nat.le_refl _
  | cons op ops ih => exact Nat.le_trans (applyOp_nextId_le db op) (ih _)

/-- Every id handed out by a successful create along a run stays below
the final counter, deletions notwithstanding. -/
theorem createdIds_lt (db : DB) (ops : List Op) :
    ∀ j ∈ createdIds db ops, j < (runOps db ops).nextId := by
  induction ops generalizing db with
  | nil => simp [createdIds]
  | cons op ops ih =>
    intro j hj
    unfold createdIds at hj
    rcases List.mem_append.mp hj with hj | hj
    · cases op with
      | create now r =>
        simp only [createResIds] at hj
        rcases hc : createHandler db now r with ⟨db3, res⟩
        rw [hc] at hj
        cases res with
        | created e =>
          rw [List.mem_singleton.mp hj]
          obtain ⟨_, he, hdb3⟩ := createHandler_created_eq hc
          have h1 : e.id = db.nextId := by rw [he]
          have h2 : (applyOp db (Op.create now r)).nextId = db.nextId + 1 := by
            show (createHandler db now r).1.nextId = db.nextId + 1
            rw [hc, hdb3]
          have h3 := runOps_nextId_le (applyOp db (Op.create now r)) ops
          have : runOps db (Op.create now r :: ops) =
              runOps (applyOp db (Op.create now r)) ops := rfl
          rw [this]
          omega
        | badRequest ds => simp at hj
        | serverError => simp at hj
      | update now idStr r => simp [createResIds] at hj
      | delete idStr => simp [createResIds] at hj
    · exact ih (applyOp db op) j hj

instance : IsTotal Equipment (fun a b => b.id ≤ a.id) :=
  ⟨fun a b => Nat.le_total b.id a.id⟩

instance : IsTrans Equipment (fun a b => b.id ≤ a.id) :=
  ⟨fun _ _ _ h1 h2 => Nat.le_trans h2 h1⟩

/-- Which messages the create route's `details` array holds: exactly the
messages of the failing fields, and nothing else. -/
theorem mem_createErrors (r : Req) :
    (nameReqMsg ∈ createErrors r ↔ nameInvalid r.name = true) ∧
    (typeReqMsg ∈ createErrors r ↔ typeInvalid r.type = true) ∧
    (statusReqMsg ∈ createErrors r ↔ statusInvalid r.status = true) ∧
    (dateFmtMsg ∈ createErrors r ↔ dateInvalidCreate r.lastCleanedDate = true) ∧
    (∀ m ∈ createErrors r,
      m = nameReqMsg ∨ m = typeReqMsg ∨ m = statusReqMsg ∨ m = dateFmtMsg) := by
  cases h1 : nameInvalid r.name <;> cases h2 : typeInvalid r.type <;>
    cases h3 : statusInvalid r.status <;>
    cases h4 : dateInvalidCreate r.lastCleanedDate <;>
    simp [createErrors, h1, h2, h3, h4, nameReqMsg, typeReqMsg, statusReqMsg,
      dateFmtMsg]

/-- The create route's `details` array is non-empty as soon as one field
fails. -/
theorem createErrors_ne_nil (r : Req)
    (h : (nameInvalid r.name || typeInvalid r.type || statusInvalid r.status ||
      dateInvalidCreate r.lastCleanedDate) = true) :
    createErrors r ≠ [] := by
  cases h1 : nameInvalid r.name <;> cases h2 : typeInvalid r.type <;>
    cases h3 : statusInvalid r.status <;>
    cases h4 : dateInvalidCreate r.lastCleanedDate <;>
    simp_all [createErrors]

/-- The create route's `details` array is empty when all fields pass. -/
theorem createErrors_nil (r : Req)
    (h1 : nameInvalid r.name = false) (h2 : typeInvalid r.type = false)
    (h3 : statusInvalid r.status = false)
    (h4 : dateInvalidCreate r.lastCleanedDate = false) :
    createErrors r = [] := by
  simp [createErrors, h1, h2, h3, h4]

/-- A `type` value the create route accepts is a string of the
enumeration. -/
theorem typeInvalid_false {v : JVal} (h : typeInvalid v = false) :
    typeOk v.toStr = true := by
  cases v <;> simp_all [typeInvalid, JVal.truthy, JVal.toStr]

/-- A `status` value the create route accepts is a string of the
enumeration. -/
theorem statusInvalid_false {v : JVal} (h : statusInvalid v = false) :
    statusOk v.toStr = true := by
  cases v <;> simp_all [statusInvalid, JVal.truthy, JVal.toStr]

/-- A `type` value the update route accepts is a string of the
enumeration. -/
theorem typeInvalidUpd_false {v : JVal} (h : typeInvalidUpd v = false) :
    typeOk v.toStr = true := by
  cases v <;> simp_all [typeInvalidUpd, JVal.toStr]

/-- A `status` value the update route accepts is a string of the
enumeration. -/
theorem statusInvalidUpd_false {v : JVal} (h : statusInvalidUpd v = false) :
    statusOk v.toStr = true := by
  cases v <;> simp_all [statusInvalidUpd, JVal.toStr]

/-- A fully valid create request inserts and answers 201 with the
stored row. -/
theorem createHandler_success (db : DB) (now : Nat) (r : Req)
    (hnil : createErrors r = []) (ht : typeOk r.type.toStr = true)
    (hs : statusOk r.status.toStr = true) :
    ∃ e, createHandler db now r =
      ({ rows := db.rows ++ [e], nextId := db.nextId + 1 },
        CreateRes.created e) ∧
      e = { id := db.nextId, name := jsTrim r.name.toStr, type := r.type.toStr,
            status := r.status.toStr,
            lastCleanedDate := if r.lastCleanedDate.truthy then
              some r.lastCleanedDate.toStr else none,
            createdAt := now, updatedAt := now } := by
  unfold createHandler
  rw [if_pos hnil]
  unfold dbInsert
  rw [if_pos ⟨ht, hs⟩]
  exact ⟨_, rfl, rfl⟩

/-- A valid update request on an existing record in a constraint-clean
store performs the UPDATE and answers 200 with the patched row. -/
theorem updateHandler_success (db : DB) (now : Nat) (idStr : String)
    (r : Req) (i : Nat) (e : Equipment)
    (hok : EnumOk db)
    (hp : parseId idStr = some i) (hg : dbGet db i = some e)
    (h1 : ¬(r.name ≠ JVal.undef ∧ nameInvalidUpd r.name = true))
    (h2 : ¬(r.type ≠ JVal.undef ∧ typeInvalidUpd r.type = true))
    (h3 : ¬(r.status ≠ JVal.undef ∧ statusInvalidUpd r.status = true))
    (h4 : ¬(r.lastCleanedDate ≠ JVal.undef ∧
      dateInvalidUpd r.lastCleanedDate = true))
    (h5 : ¬(r.name = JVal.undef ∧ r.type = JVal.undef ∧
      r.status = JVal.undef ∧ r.lastCleanedDate = JVal.undef)) :
    updateHandler db now idStr r =
      (patchRows db i (mkPatch r) now,
        UpdateRes.updated (applyPatch (mkPatch r) now e)) := by
  have hguard : ∀ x ∈ db.rows, x.id = i →
      (typeOk (applyPatch (mkPatch r) now x).type = true ∧
       statusOk (applyPatch (mkPatch r) now x).status = true) := by
    intro x hx _
    constructor
    · by_cases hty : r.type = JVal.undef
      · simp only [applyPatch, mkPatch, hty]
        simpa using (hok x hx).1
      · have hf : typeInvalidUpd r.type = false := by
          cases hb : typeInvalidUpd r.type
          · rfl
          · exact absurd ⟨hty, hb⟩ h2
        simp only [applyPatch, mkPatch, if_pos hty]
        simpa [hty] using typeInvalidUpd_false hf
    · by_cases hst : r.status = JVal.undef
      · simp only [applyPatch, mkPatch, hst]
        simpa using (hok x hx).2
      · have hf : statusInvalidUpd r.status = false := by
          cases hb : statusInvalidUpd r.status
          · rfl
          · exact absurd ⟨hst, hb⟩ h3
        simp only [applyPatch, mkPatch, if_pos hst]
        simpa [hst] using statusInvalidUpd_false hf
  have hupd : dbUpdate db i (mkPatch r) now =
      some (patchRows db i (mkPatch r) now) := by
    unfold dbUpdate
    rw [if_pos hguard]
  have hfind : dbGet (patchRows db i (mkPatch r) now) i =
      some (applyPatch (mkPatch r) now e) := by
    unfold dbGet at hg ⊢
    unfold patchRows
    rw [find?_patch, hg]
    rfl
  rw [updateHandler_eq db now idStr r i e hp hg,
    if_neg h1, if_neg h2, if_neg h3, if_neg h4, if_neg h5]
  simp only [hupd, hfind]

/-- A valid create body named A. -/
def reqA : Req := ⟨.str "A", .str "Machine", .str "Active", .undef⟩

/-- A valid create body named B. -/
def reqB : Req := ⟨.str "B", .str "Vessel", .str "Inactive", .undef⟩

/-- A valid create body named C. -/
def reqC : Req := ⟨.str "C", .str "Tank", .str "Under Maintenance", .undef⟩

/-- The row created by `reqA` at instant 0 on a fresh store. -/
def eA : Equipment := ⟨1, "A", "Machine", "Active", none, 0, 0⟩

/-- The row created by `reqB` at instant 1 as the second record. -/
def eB : Equipment := ⟨2, "B", "Vessel", "Inactive", none, 1, 1⟩

/-- The row created by `reqC` at instant 2 as the third record. -/
def eC : Equipment := ⟨3, "C", "Tank", "Under Maintenance", none, 2, 2⟩

/-- A store holding exactly `eA`. -/
def dbW : DB := { rows := [eA], nextId := 2 }

/-- Create A, delete it, create B: exercises ids surviving deletion. -/
def opsW : List Op := [Op.create 0 reqA, Op.delete "1", Op.create 1 reqB]

/-- C1: a create request collects every field validation failure
(name, type, status, lastCleanedDate) into one details array answered
with 400; an update request on an existing record answers 400 with only
the first invalid supplied field, checked in the order name, type,
status, lastCleanedDate. -/
theorem claim1_create_collects_update_fails_fast :
    (∀ (db : DB) (now : Nat) (r : Req),
      (nameInvalid r.name || typeInvalid r.type || statusInvalid r.status ||
        dateInvalidCreate r.lastCleanedDate) = true →
      ∃ ds, createHandler db now r = (db, CreateRes.badRequest ds) ∧
        (nameReqMsg ∈ ds ↔ nameInvalid r.name = true) ∧
        (typeReqMsg ∈ ds ↔ typeInvalid r.type = true) ∧
        (statusReqMsg ∈ ds ↔ statusInvalid r.status = true) ∧
        (dateFmtMsg ∈ ds ↔ dateInvalidCreate r.lastCleanedDate = true) ∧
        (∀ m ∈ ds,
          m = nameReqMsg ∨ m = typeReqMsg ∨ m = statusReqMsg ∨ m = dateFmtMsg)) ∧
    (∀ (db : DB) (now : Nat) (idStr : String) (i : Nat) (e : Equipment)
      (r : Req), parseId idStr = some i → dbGet db i = some e →
      ((r.name ≠ JVal.undef ∧ nameInvalidUpd r.name = true) →
        updateHandler db now idStr r = (db, UpdateRes.badRequest [nameUpdMsg])) ∧
      (¬(r.name ≠ JVal.undef ∧ nameInvalidUpd r.name = true) →
        (r.type ≠ JVal.undef ∧ typeInvalidUpd r.type = true) →
        updateHandler db now idStr r = (db, UpdateRes.badRequest [typeUpdMsg])) ∧
      (¬(r.name ≠ JVal.undef ∧ nameInvalidUpd r.name = true) →
        ¬(r.type ≠ JVal.undef ∧ typeInvalidUpd r.type = true) →
        (r.status ≠ JVal.undef ∧ statusInvalidUpd r.status = true) →
        updateHandler db now idStr r = (db, UpdateRes.badRequest [statusUpdMsg])) ∧
      (¬(r.name ≠ JVal.undef ∧ nameInvalidUpd r.name = true) →
        ¬(r.type ≠ JVal.undef ∧ typeInvalidUpd r.type = true) →
        ¬(r.status ≠ JVal.undef ∧ statusInvalidUpd r.status = true) →
        (r.lastCleanedDate ≠ JVal.undef ∧ dateInvalidUpd r.lastCleanedDate = true) →
        updateHandler db now idStr r = (db, UpdateRes.badRequest [dateFmtMsg]))) := by
  constructor
  · intro db now r h
    obtain ⟨m1, m2, m3, m4, m5⟩ := mem_createErrors r
    exact ⟨createErrors r, createHandler_badRequest db now r
      (createErrors_ne_nil r h), m1, m2, m3, m4, m5⟩
  · intro db now idStr i e r hp hg
    rw [updateHandler_eq db now idStr r i e hp hg]
    refine ⟨?_, ?_, ?_, ?_⟩
    · intro hc
      rw [if_pos hc]
    · intro hn hc
      rw [if_neg hn, if_pos hc]
    · intro hn ht hc
      rw [if_neg hn, if_neg ht, if_pos hc]
    · intro hn ht hs hc
      rw [if_neg hn, if_neg ht, if_neg hs, if_pos hc]

/-- C1 witness: a create with bad name, bad type, good status and bad
date lists exactly those three failures; an update supplying an
all-whitespace name and a bad type reports only the name. -/
theorem claim1_witness :
    (∃ ds, createHandler initDB 0
        ⟨JVal.undef, JVal.str "Pump", JVal.str "Active", JVal.str "bad"⟩ =
        (initDB, CreateRes.badRequest ds) ∧ nameReqMsg ∈ ds ∧ typeReqMsg ∈ ds ∧
        statusReqMsg ∉ ds ∧ dateFmtMsg ∈ ds) ∧
    updateHandler dbW 5 "1" ⟨JVal.str " ", JVal.str "Pump", JVal.undef, JVal.undef⟩ =
      (dbW, UpdateRes.badRequest [nameUpdMsg]) := by
  constructor
  · obtain ⟨ds, h0, m1, m2, m3, m4, -⟩ :=
      claim1_create_collects_update_fails_fast.1 initDB 0
        ⟨JVal.undef, JVal.str "Pump", JVal.str "Active", JVal.str "bad"⟩ (by decide)
    exact ⟨ds, h0, m1.mpr (by decide), m2.mpr (by decide),
      fun hm => absurd (m3.mp hm) (by decide), m4.mpr (by decide)⟩
  · exact (claim1_create_collects_update_fails_fast.2 dbW 5 "1" 1 eA
      ⟨JVal.str " ", JVal.str "Pump", JVal.undef, JVal.undef⟩
      (by decide) (by decide)).1 ⟨by decide, by decide⟩

/-- C2 counterexample: `"2025-13-40"` matches the digit pattern, so a
create and an update supplying it succeed instead of answering 400. -/
theorem claim2_counterexample :
    matchesDatePattern "2025-13-40" = true ∧
    createHandler initDB 0
      ⟨JVal.str "A", JVal.str "Machine", JVal.str "Active", JVal.str "2025-13-40"⟩ =
      ({ rows := [⟨1, "A", "Machine", "Active", some "2025-13-40", 0, 0⟩],
         nextId := 2 },
       CreateRes.created ⟨1, "A", "Machine", "Active", some "2025-13-40", 0, 0⟩) ∧
    updateHandler dbW 5 "1" ⟨JVal.undef, JVal.undef, JVal.undef, JVal.str "2025-13-40"⟩ =
      ({ rows := [⟨1, "A", "Machine", "Active", some "2025-13-40", 0, 5⟩],
         nextId := 2 },
       UpdateRes.updated ⟨1, "A", "Machine", "Active", some "2025-13-40", 0, 5⟩) := by
  refine ⟨by decide, by decide, by decide⟩

/-- C2 amended: `lastCleanedDate="2025-13-40"` passes the purely
syntactic YYYY-MM-DD digit check on both create and update and is
stored as supplied when the rest of the request is valid; only values
failing the digit pattern are rejected by the format check. -/
theorem claim2_amended :
    (dateInvalidCreate (JVal.str "2025-13-40") = false ∧
      dateInvalidUpd (JVal.str "2025-13-40") = false) ∧
    (∀ (db : DB) (now : Nat) (r : Req),
      r.lastCleanedDate = JVal.str "2025-13-40" →
      nameInvalid r.name = false → typeInvalid r.type = false →
      statusInvalid r.status = false →
      ∃ db2 e, createHandler db now r = (db2, CreateRes.created e) ∧
        e.lastCleanedDate = some "2025-13-40") ∧
    (∀ (db : DB) (now : Nat) (idStr : String) (i : Nat) (e : Equipment)
      (r : Req), EnumOk db →
      parseId idStr = some i → dbGet db i = some e →
      r.name = JVal.undef → r.type = JVal.undef → r.status = JVal.undef →
      r.lastCleanedDate = JVal.str "2025-13-40" →
      ∃ db2 e2, updateHandler db now idStr r = (db2, UpdateRes.updated e2) ∧
        e2.lastCleanedDate = some "2025-13-40") ∧
    dateInvalidCreate (JVal.str "2025-1-3") = true ∧
    dateInvalidUpd (JVal.str "Jan 1, 2025") = true := by
  refine ⟨by decide, ?_, ?_, by decide, by decide⟩
  · intro db now r hlcd hn ht hs
    have hnil : createErrors r = [] :=
      createErrors_nil r hn ht hs (by rw [hlcd]; decide)
    obtain ⟨e, hc, he⟩ := createHandler_success db now r hnil
      (typeInvalid_false ht) (statusInvalid_false hs)
    refine ⟨_, e, hc, ?_⟩
    rw [he, hlcd]
    simp [JVal.truthy, JVal.toStr]
  · intro db now idStr i e r hok hp hg hn ht hs hlcd
    have hsucc := updateHandler_success db now idStr r i e hok hp hg
      (by simp [hn]) (by simp [ht]) (by simp [hs])
      (by rw [hlcd]; intro hc; exact absurd hc.2 (by decide))
      (by rw [hlcd]; simp)
    refine ⟨_, _, hsucc, ?_⟩
    simp [applyPatch, mkPatch, hlcd, JVal.toStr]

/-- C2 amended witness: a concrete create and a concrete update each
supplying the calendar-invalid date succeed and store it verbatim. -/
theorem claim2_amended_witness :
    (∃ db2 e, createHandler initDB 0
        ⟨JVal.str "A", JVal.str "Machine", JVal.str "Active",
          JVal.str "2025-13-40"⟩ = (db2, CreateRes.created e) ∧
      e.lastCleanedDate = some "2025-13-40") ∧
    (∃ db2 e2, updateHandler dbW 5 "1"
        ⟨JVal.undef, JVal.undef, JVal.undef, JVal.str "2025-13-40"⟩ =
        (db2, UpdateRes.updated e2) ∧
      e2.lastCleanedDate = some "2025-13-40") := by
  constructor
  · exact claim2_amended.2.1 initDB 0
      ⟨JVal.str "A", JVal.str "Machine", JVal.str "Active",
        JVal.str "2025-13-40"⟩ rfl (by decide) (by decide) (by decide)
  · refine claim2_amended.2.2.1 dbW 5 "1" 1 eA
      ⟨JVal.undef, JVal.undef, JVal.undef, JVal.str "2025-13-40"⟩
      ?_ (by decide) (by decide) rfl rfl rfl rfl
    intro x hx
    have hxa : x = eA := by simpa [dbW] using hx
    subst hxa
    exact ⟨by decide, by decide⟩

/-- C3: a successful partial update changes only the supplied fields:
unsupplied fields keep their previous value, createdAt is unchanged and
updatedAt is set to the call instant. -/
theorem claim3_partial_update (db : DB) (now : Nat) (idStr : String)
    (i : Nat) (e : Equipment) (r : Req) (db2 : DB) (e2 : Equipment)
    (hp : parseId idStr = some i) (hg : dbGet db i = some e)
    (h : updateHandler db now idStr r = (db2, UpdateRes.updated e2)) :
    (r.name = JVal.undef → e2.name = e.name) ∧
    (r.type = JVal.undef → e2.type = e.type) ∧
    (r.status = JVal.undef → e2.status = e.status) ∧
    (r.lastCleanedDate = JVal.undef → e2.lastCleanedDate = e.lastCleanedDate) ∧
    e2.id = e.id ∧ e2.createdAt = e.createdAt ∧ e2.updatedAt = now := by
  obtain ⟨he2, -⟩ := updateHandler_updated_eq hp hg h
  subst he2
  refine ⟨?_, ?_, ?_, ?_, rfl, rfl, rfl⟩ <;> intro hu <;>
    simp [applyPatch, mkPatch, hu]

/-- C3 witness: updating only status on the store holding `eA` keeps
name, type and lastCleanedDate, keeps createdAt, and stamps updatedAt. -/
theorem claim3_witness :
    (⟨1, "A", "Machine", "Inactive", none, 0, 5⟩ : Equipment).name = eA.name ∧
    (⟨1, "A", "Machine", "Inactive", none, 0, 5⟩ : Equipment).type = eA.type ∧
    (⟨1, "A", "Machine", "Inactive", none, 0, 5⟩ : Equipment).lastCleanedDate =
      eA.lastCleanedDate ∧
    (⟨1, "A", "Machine", "Inactive", none, 0, 5⟩ : Equipment).createdAt =
      eA.createdAt ∧
    (⟨1, "A", "Machine", "Inactive", none, 0, 5⟩ : Equipment).updatedAt = 5 := by
  have h := claim3_partial_update dbW 5 "1" 1 eA
    ⟨JVal.undef, JVal.undef, JVal.str "Inactive", JVal.undef⟩
    { rows := [⟨1, "A", "Machine", "Inactive", none, 0, 5⟩], nextId := 2 }
    ⟨1, "A", "Machine", "Inactive", none, 0, 5⟩
    (by decide) (by decide) (by decide)
  exact ⟨h.1 rfl, h.2.1 rfl, h.2.2.2.1 rfl, h.2.2.2.2.2.1, h.2.2.2.2.2.2⟩

/-- C4: the list route returns the stored rows ordered by id descending
(a sorted permutation of the store), and after creating A, B, C in that
order it returns C, B, A. -/
theorem claim4_list_newest_first :
    (∀ db : DB, (getAll db).Perm db.rows ∧
      List.Pairwise (fun a b => b.id ≤ a.id) (getAll db)) ∧
    getAll (runOps initDB [Op.create 0 reqA, Op.create 1 reqB, Op.create 2 reqC]) =
      [eC, eB, eA] := by
  constructor
  · intro db
    exact ⟨List.perm_insertionSort _ db.rows,
      List.sorted_insertionSort _ db.rows⟩
  · decide

/-- C5: along any op sequence from the fresh store, a successful create
returns a record whose id is strictly greater than every id a previous
successful create returned, including ids of records deleted since. -/
theorem claim5_created_id_strictly_increases (ops : List Op) (now : Nat)
    (r : Req) (db2 : DB) (e : Equipment)
    (h : createHandler (runOps initDB ops) now r = (db2, CreateRes.created e)) :
    ∀ j ∈ createdIds initDB ops, j < e.id := by
  intro j hj
  obtain ⟨-, he, -⟩ := createHandler_created_eq h
  have hid : e.id = (runOps initDB ops).nextId := by rw [he]
  rw [hid]
  exact createdIds_lt initDB ops j hj

/-- C5 witness: after creating id 1, deleting it, and creating id 2,
a further create returns id 3, greater than both earlier ids. -/
theorem claim5_witness :
    createdIds initDB opsW = [1, 2] ∧ 1 < eC.id ∧ 2 < eC.id := by
  refine ⟨by decide, ?_, ?_⟩
  · exact claim5_created_id_strictly_increases opsW 2 reqC
      { rows := [eB, eC], nextId := 4 } eC (by decide) 1 (by decide)
  · exact claim5_created_id_strictly_increases opsW 2 reqC
      { rows := [eB, eC], nextId := 4 } eC (by decide) 2 (by decide)

/-- C6: in every reachable store state all rows have an enumerated type
and status; the store itself rejects out-of-enumeration inserts through
its CHECK constraints; and creating with type Pump answers 400 with a
details entry naming type. -/
theorem claim6_enum_invariant :
    (∀ db : DB, Reachable db → EnumOk db) ∧
    (∀ (db : DB) (now : Nat) (name ty st : String) (lcd : Option String),
      typeOk ty = false ∨ statusOk st = false →
      dbInsert db now name ty st lcd = none) ∧
    createHandler initDB 0
      ⟨JVal.str "P1", JVal.str "Pump", JVal.str "Active", JVal.undef⟩ =
      (initDB, CreateRes.badRequest [typeReqMsg]) ∧
    typeReqMsg.data.take 4 = ['t', 'y', 'p', 'e'] := by
  refine ⟨?_, ?_, by decide, by decide⟩
  · rintro db ⟨ops, hops⟩
    rw [← hops]
    exact enumOk_runOps (by intro e he; cases he) ops
  · intro db now name ty st lcd h
    unfold dbInsert
    rw [if_neg (by rcases h with h | h <;> simp [h])]

/-- C6 witness: the store reached by one valid create satisfies the
invariant, and a direct insert with type Pump is refused by the store. -/
theorem claim6_witness :
    EnumOk dbW ∧ dbInsert initDB 0 "X" "Pump" "Active" none = none := by
  constructor
  · exact claim6_enum_invariant.1 dbW ⟨[Op.create 0 reqA], by decide⟩
  · exact claim6_enum_invariant.2.1 initDB 0 "X" "Pump" "Active" none
      (Or.inl (by decide))

/-- C7: a create whose name is absent, non-string or blank after
trimming answers 400 naming name; a successful create or update that
supplied a string name stores it with surrounding whitespace removed. -/
theorem claim7_name_trimmed :
    (∀ (db : DB) (now : Nat) (r : Req), nameInvalid r.name = true →
      ∃ ds, createHandler db now r = (db, CreateRes.badRequest ds) ∧
        nameReqMsg ∈ ds) ∧
    (∀ (db : DB) (now : Nat) (r : Req) (s : String) (db2 : DB) (e : Equipment),
      r.name = JVal.str s →
      createHandler db now r = (db2, CreateRes.created e) →
      e.name = jsTrim s) ∧
    (∀ (db : DB) (now : Nat) (idStr : String) (i : Nat) (e : Equipment)
      (r : Req) (s : String) (db2 : DB) (e2 : Equipment),
      parseId idStr = some i → dbGet db i = some e → r.name = JVal.str s →
      updateHandler db now idStr r = (db2, UpdateRes.updated e2) →
      e2.name = jsTrim s) := by
  refine ⟨?_, ?_, ?_⟩
  · intro db now r h
    have hne : createErrors r ≠ [] := by
      unfold createErrors
      rw [if_pos h]
      simp
    exact ⟨createErrors r, createHandler_badRequest db now r hne,
      ((mem_createErrors r).1).mpr h⟩
  · intro db now r s db2 e hs h
    obtain ⟨-, he, -⟩ := createHandler_created_eq h
    rw [he]
    simp [hs, JVal.toStr]
  · intro db now idStr i e r s db2 e2 hp hg hs h
    obtain ⟨he2, -⟩ := updateHandler_updated_eq hp hg h
    subst he2
    simp [applyPatch, mkPatch, hs, JVal.toStr]

/-- C7 witness: an all-whitespace name is refused naming name, and a
create with a padded name stores the trimmed name. -/
theorem claim7_witness :
    (∃ ds, createHandler initDB 0
        ⟨JVal.str "   ", JVal.str "Machine", JVal.str "Active", JVal.undef⟩ =
        (initDB, CreateRes.badRequest ds) ∧ nameReqMsg ∈ ds) ∧
    (⟨1, "Tank 1", "Machine", "Active", none, 0, 0⟩ : Equipment).name =
      jsTrim "  Tank 1  " ∧
    jsTrim "  Tank 1  " = "Tank 1" := by
  refine ⟨?_, ?_, by decide⟩
  · exact claim7_name_trimmed.1 initDB 0
      ⟨JVal.str "   ", JVal.str "Machine", JVal.str "Active", JVal.undef⟩
      (by decide)
  · exact claim7_name_trimmed.2.1 initDB 0
      ⟨JVal.str "  Tank 1  ", JVal.str "Machine", JVal.str "Active", JVal.undef⟩
      "  Tank 1  "
      { rows := [⟨1, "Tank 1", "Machine", "Active", none, 0, 0⟩], nextId := 2 }
      ⟨1, "Tank 1", "Machine", "Active", none, 0, 0⟩ rfl (by decide)

/-- C8: deleting a numeric id that exists removes exactly that id and
answers 200 echoing the parsed id; a numeric id with no row answers
404; hence deleting the same id twice yields 200 then 404. -/
theorem claim8_delete_then_404 (db : DB) (idStr : String) (i : Nat)
    (hp : parseId idStr = some i) :
    (∀ e, dbGet db i = some e →
      deleteHandler db idStr = (dbDelete db i, DeleteRes.deleted i) ∧
      (∀ x ∈ (dbDelete db i).rows, x.id ≠ i) ∧
      (∀ x ∈ db.rows, x.id ≠ i → x ∈ (dbDelete db i).rows) ∧
      deleteHandler (dbDelete db i) idStr = (dbDelete db i, DeleteRes.notFound i)) ∧
    (dbGet db i = none → deleteHandler db idStr = (db, DeleteRes.notFound i)) := by
  constructor
  · intro e hg
    refine ⟨deleteHandler_found db idStr i e hp hg, ?_, ?_,
      deleteHandler_missing _ idStr i hp (dbGet_dbDelete db i)⟩
    · intro x hx
      unfold dbDelete at hx
      simp only [List.mem_filter, bne_iff_ne, ne_eq] at hx
      exact hx.2
    · intro x hx hne
      unfold dbDelete
      simp [List.mem_filter, hx, hne]
  · intro hg
    exact deleteHandler_missing db idStr i hp hg

/-- C8 witness: deleting id 1 from the store holding `eA` answers 200
with id 1, and a second delete of the same id answers 404. -/
theorem claim8_witness :
    deleteHandler dbW "1" = (dbDelete dbW 1, DeleteRes.deleted 1) ∧
    deleteHandler (dbDelete dbW 1) "1" = (dbDelete dbW 1, DeleteRes.notFound 1) := by
  have h := (claim8_delete_then_404 dbW "1" 1 (by decide)).1 eA (by decide)
  exact ⟨h.1, h.2.2.2⟩

/-- C9: on create, a falsy lastCleanedDate (absent, null or the empty
string) skips the format check and is stored as NULL; on update, a
supplied empty string fails the format check with 400, because only an
absent field or an explicit null bypasses the regex there. -/
theorem claim9_empty_date_asymmetry :
    (∀ (db : DB) (now : Nat) (r : Req), r.lastCleanedDate.truthy = false →
      dateInvalidCreate r.lastCleanedDate = false ∧
      ∀ (db2 : DB) (e : Equipment),
        createHandler db now r = (db2, CreateRes.created e) →
        e.lastCleanedDate = none) ∧
    (∀ (db : DB) (now : Nat) (idStr : String) (i : Nat) (e : Equipment)
      (r : Req), parseId idStr = some i → dbGet db i = some e →
      r.name = JVal.undef → r.type = JVal.undef → r.status = JVal.undef →
      r.lastCleanedDate = JVal.str "" →
      updateHandler db now idStr r = (db, UpdateRes.badRequest [dateFmtMsg])) ∧
    dateInvalidUpd JVal.null = false ∧
    (∀ v : JVal, v ≠ JVal.undef → v ≠ JVal.null →
      dateInvalidUpd v = !matchesDatePattern v.toStr) := by
  refine ⟨?_, ?_, by decide, ?_⟩
  · intro db now r h
    constructor
    · unfold dateInvalidCreate
      rw [h]
      rfl
    · intro db2 e hc
      obtain ⟨-, he, -⟩ := createHandler_created_eq hc
      rw [he]
      simp [h]
  · intro db now idStr i e r hp hg hn ht hs hlcd
    rw [updateHandler_eq db now idStr r i e hp hg,
      if_neg (by simp [hn]), if_neg (by simp [ht]), if_neg (by simp [hs]),
      if_pos ⟨by rw [hlcd]; decide, by rw [hlcd]; decide⟩]
  · intro v h1 h2
    cases v <;> simp_all [dateInvalidUpd]

/-- C9 witness: a create supplying an empty-string date succeeds and
stores NULL, while an update supplying the empty string answers 400
with the format message. -/
theorem claim9_witness :
    dateInvalidCreate (JVal.str "") = false ∧
    eA.lastCleanedDate = none ∧
    updateHandler dbW 5 "1" ⟨JVal.undef, JVal.undef, JVal.undef, JVal.str ""⟩ =
      (dbW, UpdateRes.badRequest [dateFmtMsg]) := by
  have h1 := claim9_empty_date_asymmetry.1 initDB 0
    ⟨JVal.str "A", JVal.str "Machine", JVal.str "Active", JVal.str ""⟩ (by decide)
  refine ⟨h1.1, h1.2 dbW eA (by decide), ?_⟩
  exact claim9_empty_date_asymmetry.2.1 dbW 5 "1" 1 eA
    ⟨JVal.undef, JVal.undef, JVal.undef, JVal.str ""⟩
    (by decide) (by decide) rfl rfl rfl rfl

/-- C10: an update whose numeric path id resolves to no row answers 404
echoing the parsed id, whatever the body holds: the existence check
runs before any field validation and before the zero-fields check. -/
theorem claim10_update_unknown_id_404 (db : DB) (now : Nat) (idStr : String)
    (i : Nat) (r : Req)
    (hp : parseId idStr = some i) (hg : dbGet db i = none) :
    updateHandler db now idStr r = (db, UpdateRes.notFound i) :=
  updateHandler_notFound db now idStr r i hp hg

/-- C10 witness: updating id 999999 with an invalid body on the store
holding only id 1 answers 404 echoing 999999, not 400. -/
theorem claim10_witness :
    updateHandler dbW 0 "999999" ⟨JVal.str "", JVal.undef, JVal.undef, JVal.undef⟩ =
      (dbW, UpdateRes.notFound 999999) :=
  claim10_update_unknown_id_404 dbW 0 "999999" 999999
    ⟨JVal.str "", JVal.undef, JVal.undef, JVal.undef⟩ (by decide) (by decide)

end Equip
